import Mathlib

/-!
# Shallow embedding of the backtest simulation engine

This file embeds, over exact rationals, the algorithmic content of

* `cryptobot/bot/backtesting/backtest_engine.py` (`BacktestEngine`):
  order fill pricing, fees, slippage, position/capital bookkeeping,
  per-fill trade recording and the historical simulation loop; and
* `cryptobot/bot/backtesting/performance_metrics.py`
  (`PerformanceAnalyzer`): the metrics entry point, the Sortino ratio
  and the drawdown metrics.

Conventions of the embedding:

* Python floats are embedded as `ℚ`; the non-finite values the source
  can produce (`np.inf` from the Sortino branch, the non-finite result
  of a division by zero volume) are represented by dedicated
  constructors of small inductive result types.
* Timestamps are embedded as tick indices (`ℕ`) in the engine and as
  rational epoch seconds in the drawdown metrics (the source divides
  timestamp differences by 3600 to obtain hours).
* The engine is embedded for a single-symbol run: `run_historical`
  aligns one `DataFrame` per symbol on the union of their indices and
  `_create_order` only ever places orders on `symbols[0]`, so for one
  symbol the bar current at tick `i` is exactly the `i`-th fetched bar.
* `Exception`s are embedded as `Option`/`none`: `run_historical` wraps
  its whole loop in `try/except` and returns `{}` on any exception, so
  the embedded run returns `none` exactly where the source returns the
  empty dict.
-/

namespace Backtest

/-- `OrderSide` from `execution/order_types.py`. -/
inductive OrderSide where
  | buy
  | sell
deriving DecidableEq

/-- `.value` of the `OrderSide` enum member, as stored by `_record_trade`. -/
def OrderSide.value : OrderSide → String
  | .buy => "buy"
  | .sell => "sell"

/-- `OrderRequest` from `execution/order_types.py`, restricted to the fields
the backtest engine reads.  The source compares `order.order_type` against
the strings "market" and "limit", so the field is embedded as a `String`.
`createdTick` is a model artifact recording the simulation tick at which the
engine appended the order to `open_orders` (the source stores a wall-clock
`datetime.now()` which carries no simulation information). -/
structure OrderRequest where
  symbol : String
  side : OrderSide
  order_type : String
  quantity : ℚ
  price : Option ℚ
  createdTick : ℕ
deriving DecidableEq

/-- One OHLCV bar (a row of the per-symbol `DataFrame`), the `market_data`
argument of `_calculate_fill_price` / `_calculate_slippage`. -/
structure Bar where
  high : ℚ
  low : ℚ
  close : ℚ
  volume : ℚ
deriving DecidableEq

/-- `BacktestEngine._calculate_fill_price`: a market order returns the current
bar's close; a limit order returns its limit price when
`side=BUY ∧ low ≤ price` or `side=SELL ∧ high ≥ price`; otherwise `None`.
A limit order whose `price` is `None` makes the source raise a `TypeError`
inside the run-level `try` (embedded as no fill; no claim exercises it). -/
def calculateFillPrice (order : OrderRequest) (bar : Bar) : Option ℚ :=
  if order.order_type = "market" then
    some bar.close
  else if order.order_type = "limit" then
    match order.price with
    | some p =>
        if (order.side = .buy ∧ bar.low ≤ p) ∨ (order.side = .sell ∧ bar.high ≥ p) then
          some p
        else
          none
    | none => none
  else
    none

/-- The `if filled_price:` truthiness test in `_process_orders`: both `None`
and `0.0` are falsy in Python, so a zero fill price is treated as no fill. -/
def fillPriceTruthy : Option ℚ → Bool
  | none => false
  | some p => p ≠ 0

/-- `BacktestEngine._calculate_fees`: `quantity * price * commission_rate`. -/
def calculateFees (commissionRate quantity price : ℚ) : ℚ :=
  quantity * price * commissionRate

/-- Result of `_calculate_slippage`.  `fin q` is the finite float the source
computes; `divZero` marks the volume-based branch dividing by a zero
`market_data['volume']`, where numpy produces a non-finite value instead of
a rational slippage amount. -/
inductive SlipResult where
  | fin (q : ℚ)
  | divZero
deriving DecidableEq

/-- `BacktestEngine._calculate_slippage`: the basic model returns
`abs(fill_price * 0.0001)`; the volume-based model scales that by
`1 + (quantity * fill_price) / volume` with no guard on `volume = 0`;
any other model string returns `0.0`. -/
def calculateSlippage (model : String) (order : OrderRequest) (fillPrice : ℚ)
    (bar : Bar) : SlipResult :=
  if model = "basic" then
    .fin |fillPrice * (1 / 10000)|
  else if model = "volume_based" then
    if bar.volume = 0 then
      .divZero
    else
      .fin |fillPrice * (1 / 10000) * (1 + order.quantity * fillPrice / bar.volume)|
  else
    .fin 0

/-- One per-symbol entry of `BacktestEngine.positions`.  `realized_pnl` is
initialised to `0` by `_update_position` and never written afterwards. -/
structure Position where
  quantity : ℚ
  average_price : ℚ
  realized_pnl : ℚ
deriving DecidableEq

/-- The zero entry `_update_position` inserts for a previously unseen symbol. -/
def Position.initial : Position := ⟨0, 0, 0⟩

/-- Dict lookup on the insertion-ordered `positions` dict. -/
def lookupPos : List (String × Position) → String → Option Position
  | [], _ => none
  | (k, v) :: rest, s => if k = s then some v else lookupPos rest s

/-- Dict update on the insertion-ordered `positions` dict. -/
def setPos : List (String × Position) → String → Position → List (String × Position)
  | [], s, p => [(s, p)]
  | (k, v) :: rest, s, p =>
      if k = s then (s, p) :: rest else (k, v) :: setPos rest s p

/-- The per-entry body of `_update_position`: the average price is recomputed
as a quantity-weighted average only when the signed fill extends an existing
same-direction exposure (or the position was flat, where it is set to the
fill price); the quantity is then incremented by the signed fill quantity. -/
def updatePositionRec (pos : Position) (signedQty fillPrice : ℚ) : Position :=
  let avg :=
    if pos.quantity = 0 then
      fillPrice
    else if (pos.quantity > 0 ∧ signedQty > 0) ∨ (pos.quantity < 0 ∧ signedQty < 0) then
      (pos.quantity * pos.average_price + signedQty * fillPrice) /
        (pos.quantity + signedQty)
    else
      pos.average_price
  { pos with average_price := avg, quantity := pos.quantity + signedQty }

/-- `TradeMetrics` from `performance_metrics.py`. -/
structure TradeMetrics where
  entry_time : ℚ
  exit_time : ℚ
  symbol : String
  side : String
  entry_price : ℚ
  exit_price : ℚ
  quantity : ℚ
  pnl : ℚ
  fees : ℚ
  slippage : ℚ
  holding_period : ℚ
  return_pct : ℚ
deriving DecidableEq

/-- The entry `_process_orders` appends to `filled_orders` (the fields of the
source `OrderResponse` the claims read, plus the model-artifact fill tick). -/
structure FilledOrder where
  order : OrderRequest
  average_price : ℚ
  fees : ℚ
  tick : ℕ
deriving DecidableEq

/-- `BacktestEngine._record_trade`: a `TradeMetrics` row is built from the
fill with `entry = exit = fill price`, `pnl = 0` (the source comment says it
"will be updated on position close" but no code ever updates it),
zero holding period and zero return. -/
def recordTrade (order : OrderRequest) (price fees slip : ℚ) (tick : ℕ) : TradeMetrics :=
  { entry_time := tick
    exit_time := tick
    symbol := order.symbol
    side := order.side.value
    entry_price := price
    exit_price := price
    quantity := order.quantity
    pnl := 0
    fees := fees
    slippage := slip
    holding_period := 0
    return_pct := 0 }

/-- The engine configuration fields the embedded functions read, with the
constructor defaults of `BacktestEngine.__init__`. -/
structure Config where
  initial_capital : ℚ := 100000
  commission_rate : ℚ := 1 / 1000
  slippage_model : String := "basic"

/-- The mutable state of `BacktestEngine` touched by the simulation loop.
`trades` is the `performance_analyzer.trades` list fed by `add_trade`;
`equity_curve` keeps the appended portfolio values. -/
structure EngineState where
  current_capital : ℚ
  positions : List (String × Position)
  open_orders : List OrderRequest
  filled_orders : List FilledOrder
  trades : List TradeMetrics
  equity_curve : List ℚ
deriving DecidableEq

/-- The state set up by `BacktestEngine.__init__`. -/
def initialState (initialCapital : ℚ) : EngineState :=
  { current_capital := initialCapital
    positions := []
    open_orders := []
    filled_orders := []
    trades := []
    equity_curve := [] }

/-- `BacktestEngine._update_position`: signed quantity is `+quantity` for a
buy and `-quantity` for a sell; the symbol's dict entry is created at zero if
absent and updated through `updatePositionRec`; the capital is debited by
`signed_quantity * fill_price + costs` where `costs = fees + slippage`. -/
def updatePosition (st : EngineState) (order : OrderRequest) (fillPrice costs : ℚ) :
    EngineState :=
  let signedQty := if order.side = .buy then order.quantity else -order.quantity
  let pos := (lookupPos st.positions order.symbol).getD Position.initial
  let pos' := updatePositionRec pos signedQty fillPrice
  { st with
    positions := setPos st.positions order.symbol pos'
    current_capital := st.current_capital - (signedQty * fillPrice + costs) }

/-- The loop body of `_process_orders` over the pending-order list: an order
whose (truthy) fill price is available is filled — fees and slippage are
computed, the position and capital updated, a trade recorded, the order moved
to `filled_orders` — otherwise it stays pending.  A `divZero` slippage
(volume-based model on a zero-volume bar) leaves the rational domain and is
embedded as `none`. -/
def processOrdersAux (cfg : Config) (bar : Bar) (tick : ℕ) :
    List OrderRequest → EngineState → Option EngineState
  | [], st => some st
  | o :: rest, st =>
      let fp := calculateFillPrice o bar
      if fillPriceTruthy fp then
        match fp with
        | none => processOrdersAux cfg bar tick rest
            { st with open_orders := st.open_orders ++ [o] }
        | some p =>
            let fees := calculateFees cfg.commission_rate o.quantity p
            match calculateSlippage cfg.slippage_model o p bar with
            | .divZero => none
            | .fin s =>
                let st1 := updatePosition st o p (fees + s)
                processOrdersAux cfg bar tick rest
                  { st1 with
                    filled_orders := st1.filled_orders ++ [⟨o, p, fees, tick⟩]
                    trades := st1.trades ++ [recordTrade o p fees s tick] }
      else
        processOrdersAux cfg bar tick rest
          { st with open_orders := st.open_orders ++ [o] }

/-- `BacktestEngine._process_orders`: every currently pending order is tried
against the current bar; filled orders leave `open_orders`, pending ones
remain for the next snapshot. -/
def processOrders (cfg : Config) (bar : Bar) (tick : ℕ) (st : EngineState) :
    Option EngineState :=
  processOrdersAux cfg bar tick st.open_orders { st with open_orders := [] }

/-- A strategy signal (`{'side': ..., 'confidence': ...}` dict). -/
structure Signal where
  side : OrderSide
  confidence : ℚ
deriving DecidableEq

/-- The external strategy as the engine consumes it: `analyzeMarket` embeds
`strategy.analyze_market` (returning `none` where the source instance raises)
and `positionSize` embeds `strategy_class.calculate_position_size`. -/
structure Strategy where
  analyzeMarket : Bar → Option (List Signal)
  positionSize : Signal → ℚ → ℚ

/-- `BacktestEngine._create_order`: the source intends to build a market
order, but its body always raises inside its own `try`:
`calculate_position_size` is called on the strategy class (the base class
does not provide it as a class-callable two-argument function), and the
`OrderRequest(symbol=…, side=…, quantity=…, price=None, type='market',
timestamp=datetime.now())` construction passes the unknown keywords `type`
and `timestamp` while omitting the required `order_type` field of the
dataclass in `execution/order_types.py`, raising `TypeError`.  The method's
own `except Exception` catches the error and returns `None`.
`_create_order` therefore never creates an order, for any signal. -/
def createOrder (strat : Strategy) (symbol : String) (capital : ℚ) (sig : Signal)
    (tick : ℕ) : Option OrderRequest :=
  none

/-- `BacktestEngine._update_equity_curve`: portfolio value is the capital
plus `quantity * (close − average_price)` for every open position with a
nonzero quantity. -/
def updateEquityCurve (st : EngineState) (bar : Bar) : EngineState :=
  let pv := st.current_capital +
    (st.positions.map (fun kv =>
      if kv.2.quantity ≠ 0 then kv.2.quantity * (bar.close - kv.2.average_price) else 0)).sum
  { st with equity_curve := st.equity_curve ++ [pv] }

/-- The per-timestamp loop of `run_historical` (lines 121–141): at tick `i`,
pending orders are processed against the current bar FIRST, then the strategy
is asked for signals and the resulting orders are appended to `open_orders`
(so they are first evaluated at tick `i + 1`), then an equity point is
appended.  A strategy exception propagates to the run-level `except`, which
returns `{}` — embedded as `none`. -/
def simulateAux (cfg : Config) (strat : Strategy) (symbol : String) :
    ℕ → List Bar → EngineState → Option EngineState
  | _, [], st => some st
  | i, bar :: rest, st =>
      match processOrders cfg bar i st with
      | none => none
      | some st1 =>
          match strat.analyzeMarket bar with
          | none => none
          | some sigs =>
              let newOrders :=
                sigs.filterMap (fun sg => createOrder strat symbol st1.current_capital sg i)
              let st2 := { st1 with open_orders := st1.open_orders ++ newOrders }
              let st3 := updateEquityCurve st2 bar
              simulateAux cfg strat symbol (i + 1) rest st3

/-- `BacktestEngine.run_historical` for a single-symbol run: the fetched bars
are simulated in order from a fresh engine state; `none` is the source's
empty-dict result of the run-level exception handler. -/
def runHistorical (cfg : Config) (strat : Strategy) (symbol : String)
    (bars : List Bar) : Option EngineState :=
  simulateAux cfg strat symbol 0 bars (initialState cfg.initial_capital)

/-- Modelled from the spec: the per-tick failure semantics §4.4/§7 claims —
"a Strategy exception at one tick is caught, logged, and that tick's order
generation is skipped (simulation continues)".  Identical to `simulateAux`
except that a failing `analyzeMarket` contributes no orders instead of
aborting the run.  Used only to contrast with the source behaviour. -/
def simulateSkipAux (cfg : Config) (strat : Strategy) (symbol : String) :
    ℕ → List Bar → EngineState → Option EngineState
  | _, [], st => some st
  | i, bar :: rest, st =>
      match processOrders cfg bar i st with
      | none => none
      | some st1 =>
          let sigs := (strat.analyzeMarket bar).getD []
          let newOrders :=
            sigs.filterMap (fun sg => createOrder strat symbol st1.current_capital sg i)
          let st2 := { st1 with open_orders := st1.open_orders ++ newOrders }
          let st3 := updateEquityCurve st2 bar
          simulateSkipAux cfg strat symbol (i + 1) rest st3

/-- A fill as `_process_orders` hands it to the ledger: the order, the fill
price, and the separately computed fees and slippage (the source passes
`fees + slippage` as the `costs` argument of `_update_position`). -/
structure Fill where
  order : OrderRequest
  price : ℚ
  fees : ℚ
  slippage : ℚ
deriving DecidableEq

/-- Applying one fill to the ledger exactly as `_process_orders` does:
`self._update_position(order, filled_price, fees + slippage)`. -/
def applyFill (st : EngineState) (f : Fill) : EngineState :=
  updatePosition st f.order f.price (f.fees + f.slippage)

/-- A sequence of fills applied to the ledger in order. -/
def applyFills (st : EngineState) (fills : List Fill) : EngineState :=
  fills.foldl applyFill st

/-! ## `PerformanceAnalyzer` (performance_metrics.py) -/

/-- The basic count and PnL locals `calculate_metrics` computes for a
nonempty trade list (lines 154–163), before any pandas resampling: winning
trades are the rows with `pnl > 0`, losing trades the rows with `pnl <= 0`,
and the PnL fields are the column sums.  For nonempty input these locals are
computed but never returned — see `calculateMetrics`. -/
structure BasicCounts where
  total_trades : ℕ
  winning_trades : ℕ
  losing_trades : ℕ
  total_pnl : ℚ
  total_fees : ℚ
  total_slippage : ℚ
  net_pnl : ℚ
deriving DecidableEq

/-- The locals of `calculate_metrics` lines 154–163 as a record. -/
def basicCounts (trades : List TradeMetrics) : BasicCounts :=
  { total_trades := trades.length
    winning_trades := (trades.filter (fun t => t.pnl > 0)).length
    losing_trades := (trades.filter (fun t => t.pnl ≤ 0)).length
    total_pnl := (trades.map (fun t => t.pnl)).sum
    total_fees := (trades.map (fun t => t.fees)).sum
    total_slippage := (trades.map (fun t => t.slippage)).sum
    net_pnl := (trades.map (fun t => t.pnl)).sum - (trades.map (fun t => t.fees)).sum
      - (trades.map (fun t => t.slippage)).sum }

/-- Observable outcome of `PerformanceAnalyzer.calculate_metrics`:
`pyNone` is the Python value `None` returned for an empty trade list
(`if not self.trades: return None`, lines 148–149, reached before any pandas
call); `raisedTypeError` marks the `TypeError` the call raises for every
nonempty trade list at `returns.resample('D')` (line 172) — the equity curve
rebuilt from the trades DataFrame carries a plain `RangeIndex`, which pandas
resampling rejects — so the `PerformanceMetrics` construction at line 187 is
never reached and no metrics object is ever returned. -/
inductive MetricsResult where
  | pyNone
  | raisedTypeError
deriving DecidableEq

/-- `PerformanceAnalyzer.calculate_metrics`: the Python value `None` on an
empty trade list; for a nonempty list the basic counts of `basicCounts` are
computed (lines 154–163) and the call then raises `TypeError` at the
daily-returns resampling (line 172), returning nothing. -/
def calculateMetrics (trades : List TradeMetrics) : MetricsResult :=
  if trades = [] then .pyNone else .raisedTypeError

/-- Result of `_calculate_sortino_ratio`.  `zero` is the float `0.0` (empty
returns, or a zero downside deviation); `posInf` is `np.inf` (no negative
returns); `finite excess dstdSq` is the finite float
`sqrt(252) * excess / sqrt(dstdSq)` with `excess = mean(returns) − rf/252`
and `dstdSq = mean(neg²)` the squared downside deviation, carried
symbolically because its value is irrational. -/
inductive SortinoResult where
  | zero
  | posInf
  | finite (excess dstdSq : ℚ)
deriving DecidableEq

/-- Whether a `SortinoResult` denotes the numeric IEEE infinity `np.inf`. -/
def SortinoResult.isNumericInfinity : SortinoResult → Bool
  | .posInf => true
  | _ => false

/-- `PerformanceAnalyzer._calculate_sortino_ratio`: `0.0` on an empty series;
`np.inf` when the series has no negative entry; otherwise
`sqrt(252) * (mean(returns) − rf/252) / sqrt(mean(neg²))` with a `0.0` guard
on a zero downside deviation (`downside_std == 0` iff `mean(neg²) == 0`). -/
def calculateSortino (riskFree : ℚ) (returns : List ℚ) : SortinoResult :=
  if returns = [] then
    .zero
  else
    let negs := returns.filter (fun r => r < 0)
    if negs.length = 0 then
      .posInf
    else
      let dstdSq := (negs.map (fun r => r ^ 2)).sum / (negs.length : ℚ)
      if dstdSq = 0 then
        .zero
      else
        .finite (returns.sum / (returns.length : ℚ) - riskFree / 252) dstdSq

/-- `pandas.Series.expanding().max()` on the tail, given the running maximum
of the consumed head. -/
def rollingMaxAux (m : ℚ) : List ℚ → List ℚ
  | [] => []
  | x :: xs => (max m x) :: rollingMaxAux (max m x) xs

/-- `self.equity_curve.expanding().max()`: element `i` is the maximum of the
first `i + 1` equity values. -/
def rollingMax : List ℚ → List ℚ
  | [] => []
  | x :: xs => rollingMaxAux x (x :: xs)

/-- `pandas.Series.min()` on a nonempty series (the embedded caller guards
emptiness). -/
def listMin : List ℚ → ℚ
  | [] => 0
  | x :: xs => xs.foldl min x

/-- `PerformanceAnalyzer._calculate_drawdown_metrics` over an equity curve of
(epoch-second timestamp, equity value) points: drawdowns are the raw
differences `equity − running_max` (not divided by the running maximum);
`max_dd` is their minimum; `dd_start` are the timestamps with zero drawdown
and `dd_end` those attaining `max_dd`; the reported pair is
`(abs(max_dd), (dd_end[0] − dd_start[-1]) / 3600)` with a `(abs(max_dd), 0)`
fallback when either index set is empty, and `(0, 0)` on an empty curve. -/
def calculateDrawdownMetrics (curve : List (ℚ × ℚ)) : ℚ × ℚ :=
  match curve with
  | [] => (0, 0)
  | _ =>
      let values := curve.map Prod.snd
      let times := curve.map Prod.fst
      let rmax := rollingMax values
      let dds := List.zipWith (fun v m => v - m) values rmax
      let maxDD := listMin dds
      let tdd := List.zip times dds
      let ddStart := (tdd.filter (fun p => p.2 = 0)).map Prod.fst
      let ddEnd := (tdd.filter (fun p => p.2 = maxDD)).map Prod.fst
      match ddStart.getLast?, ddEnd.head? with
      | some ts, some te => (|maxDD|, (te - ts) / 3600)
      | _, _ => (|maxDD|, 0)

/-- The quantity the amended C9 compares the code against: the largest
magnitude of `equity − running_max` over the curve, an absolute (currency)
amount. -/
def absMaxDrawdown (curve : List (ℚ × ℚ)) : ℚ :=
  (List.zipWith (fun m v => m - v) (rollingMax (curve.map Prod.snd))
    (curve.map Prod.snd)).foldl max 0

/-! ## Theorems -/

/-- C4: `calculate_metrics` on an empty trade list does not return a complete
zero-default metrics object — it hits `if not self.trades: return None`
(before any pandas call) and returns the Python value `None`, i.e. an absent
result, contradicting the claim (and the function's own
`-> PerformanceMetrics` annotation and docstring). -/
theorem C4_empty_trades_returns_none :
    calculateMetrics [] = MetricsResult.pyNone := by
  simp [calculateMetrics]

/-- C6: under the volume-based slippage model, a fill against a snapshot with
`volume = 0` makes `_calculate_slippage` divide by zero (numpy yields a
non-finite value); it does not fall back to the basic model, whose value at
the same fill would be the finite `0.0001 * 50000 = 5`. -/
theorem C6_zero_volume_divides_by_zero :
    calculateSlippage "volume_based" ⟨"BTC", .buy, "market", 1, none, 0⟩ 50000
        ⟨50500, 49500, 50000, 0⟩ = SlipResult.divZero ∧
    calculateSlippage "basic" ⟨"BTC", .buy, "market", 1, none, 0⟩ 50000
        ⟨50500, 49500, 50000, 0⟩ = SlipResult.fin 5 ∧
    SlipResult.divZero ≠ SlipResult.fin 5 := by
  refine ⟨by simp [calculateSlippage], ?_, by simp⟩
  norm_num [calculateSlippage]

/-- C5, counterexample: on the all-positive returns series `[0.01, 0.02]`
(no negative returns) the source Sortino ratio is `np.inf`, a numeric
infinity — not an explicit non-numeric sentinel such as `None`, which the
claim requires. -/
theorem C5_counterexample :
    calculateSortino (2 / 100) [1 / 100, 2 / 100] = SortinoResult.posInf ∧
    SortinoResult.isNumericInfinity
      (calculateSortino (2 / 100) [1 / 100, 2 / 100]) = true := by
  have h : calculateSortino (2 / 100) [1 / 100, 2 / 100] = SortinoResult.posInf := by
    rw [calculateSortino]
    norm_num [List.filter]
    exact fun hc => absurd hc (List.cons_ne_nil _ _)
  exact ⟨h, by rw [h]; rfl⟩

/-- C5, amended: for every nonempty returns series containing no negative
return, `_calculate_sortino_ratio` returns the numeric infinity `np.inf`
(never a non-numeric sentinel, and not `0`). -/
theorem C5_no_downside_gives_infinity (riskFree : ℚ) (returns : List ℚ)
    (hne : returns ≠ []) (hnoneg : ∀ r ∈ returns, ¬ r < 0) :
    calculateSortino riskFree returns = SortinoResult.posInf := by
  have hf : returns.filter (fun r => r < 0) = [] := by
    rw [List.filter_eq_nil_iff]
    intro a ha
    simpa using hnoneg a ha
  simp [calculateSortino, hne, hf]

/-- C5, witness: the amended theorem applied at `rf = 0.02`,
`returns = [0.01, 0.02]`. -/
theorem C5_witness :
    calculateSortino (2 / 100) [1 / 100, 2 / 100] = SortinoResult.posInf :=
  C5_no_downside_gives_infinity (2 / 100) [1 / 100, 2 / 100] (by simp)
    (by norm_num)

/-- C2, counterexample: one buy fill of quantity 1 at price 50000 with fees 50
and slippage 5 leaves capital `100000 − 50055 = 49945`, not the
`100000 − (notional + fees) = 49950` the claim's formula gives: the ledger
debits slippage along with the fees. -/
theorem C2_counterexample :
    (applyFills (initialState 100000)
        [⟨⟨"BTC", .buy, "market", 1, none, 0⟩, 50000, 50, 5⟩]).current_capital
      = 49945 ∧
    (49945 : ℚ) ≠ 100000 - (1 * 50000 + 50) := by
  constructor
  · norm_num [applyFills, applyFill, updatePosition, updatePositionRec, lookupPos,
      setPos, initialState]
  · norm_num

/-- C2, amended: for every sequence of fills applied to the ledger, the final
capital equals the initial capital minus the sum over buy fills of
`notional + (fees + slippage)` plus the sum over sell fills of
`notional − (fees + slippage)` — exactly, and (since this holds for an
arbitrary starting state and an arbitrary fill list, hence for every prefix)
at every step. -/
theorem C2_capital_conservation (st : EngineState) (fills : List Fill) :
    (applyFills st fills).current_capital =
      st.current_capital
        - ((fills.filter (fun f => f.order.side = OrderSide.buy)).map
            (fun f => f.order.quantity * f.price + (f.fees + f.slippage))).sum
        + ((fills.filter (fun f => f.order.side = OrderSide.sell)).map
            (fun f => f.order.quantity * f.price - (f.fees + f.slippage))).sum := by
  induction fills generalizing st with
  | nil => simp [applyFills]
  | cons f fs ih =>
      have hstep : applyFills st (f :: fs) = applyFills (applyFill st f) fs := rfl
      rw [hstep, ih]
      have hcap : (applyFill st f).current_capital =
          st.current_capital -
            ((if f.order.side = OrderSide.buy then f.order.quantity
                else -f.order.quantity) * f.price + (f.fees + f.slippage)) := rfl
      rw [hcap]
      cases hside : f.order.side with
      | buy =>
          simp [List.filter_cons, hside]
          ring
      | sell =>
          simp [List.filter_cons, hside]
          ring

/-- C10: the classification the claim describes is exactly the one the
source computes — winners are the trades with `pnl > 0`, losers those with
`pnl ≤ 0`, a break-even trade counted as losing, and the two classes
partition every trade list so `winning_trades + losing_trades =
total_trades` — but for every nonempty trade list `calculate_metrics`
raises `TypeError` at the daily-returns resampling before the
`PerformanceMetrics` object is built, so the claimed fields are never
returned to the caller: the partition holds of the computed locals
(`basicCounts`), not of any returned metrics object. -/
theorem C10_win_lose_partition :
    (∀ trades : List TradeMetrics, trades ≠ [] →
      calculateMetrics trades = MetricsResult.raisedTypeError) ∧
    (∀ trades : List TradeMetrics,
      (basicCounts trades).winning_trades + (basicCounts trades).losing_trades
        = (basicCounts trades).total_trades ∧
      (basicCounts trades).winning_trades
        = (trades.filter (fun t => t.pnl > 0)).length ∧
      (basicCounts trades).losing_trades
        = (trades.filter (fun t => t.pnl ≤ 0)).length) := by
  constructor
  · intro trades h
    simp [calculateMetrics, h]
  · intro trades
    refine ⟨?_, rfl, rfl⟩
    show (trades.filter (fun t => t.pnl > 0)).length
      + (trades.filter (fun t => t.pnl ≤ 0)).length = trades.length
    induction trades with
    | nil => rfl
    | cons t ts ihl =>
        by_cases hp : t.pnl > 0
        · rw [List.filter_cons_of_pos (by simpa using hp),
            List.filter_cons_of_neg (by simpa using not_le.mpr hp),
            List.length_cons, List.length_cons]
          omega
        · rw [List.filter_cons_of_neg (by simpa using hp),
            List.filter_cons_of_pos (by simpa using not_lt.mp hp),
            List.length_cons, List.length_cons]
          omega

/-- `updatePosition` never touches the filled-order list. -/
theorem updatePosition_filled_orders (st : EngineState) (o : OrderRequest)
    (p c : ℚ) : (updatePosition st o p c).filled_orders = st.filled_orders := rfl

/-- `updatePosition` never touches the recorded-trade list. -/
theorem updatePosition_trades (st : EngineState) (o : OrderRequest)
    (p c : ℚ) : (updatePosition st o p c).trades = st.trades := rfl

/-- A single pending market order against a bar with nonzero close fills at
the close under the basic slippage model, debiting the ledger and appending
one filled order and one trade record. -/
theorem processOrders_market_singleton (cfg : Config) (bar : Bar) (tick : ℕ)
    (st : EngineState) (o : OrderRequest)
    (ho : o.order_type = "market") (hc : bar.close ≠ 0)
    (hopen : st.open_orders = [o]) (hbasic : cfg.slippage_model = "basic") :
    processOrders cfg bar tick st =
      some (let fees := calculateFees cfg.commission_rate o.quantity bar.close
            let s := |bar.close * (1 / 10000)|
            let st1 := updatePosition { st with open_orders := [] } o bar.close (fees + s)
            { st1 with
              filled_orders := st1.filled_orders ++ [⟨o, bar.close, fees, tick⟩]
              trades := st1.trades ++ [recordTrade o bar.close fees s tick] }) := by
  have hfp : calculateFillPrice o bar = some bar.close := by
    rw [calculateFillPrice, ho]
    simp
  rw [processOrders, hopen]
  simp only [processOrdersAux, hfp, fillPriceTruthy, hc, hbasic, calculateSlippage,
    ite_true, ne_eq, not_false_eq_true]
  rfl

/-- C3, counterexample: a buy fill that merely opens a position (quantity
goes 0 → 1, no sign flip, no transition to zero from nonzero) already emits
one TradeMetrics record, and the full buy-1-then-sell-1 round trip leaves
`position.quantity = 0` but emits two records of quantity 1 — not the exactly
one record the claim demands. -/
theorem C3_counterexample :
    ((processOrders {} ⟨50500, 49500, 50000, 10⟩ 1
        { initialState 100000 with
          open_orders := [⟨"BTC", .buy, "market", 1, none, 0⟩] }).map
      (fun st1 => (st1.trades.length, lookupPos st1.positions "BTC"))
      = some (1, some ⟨1, 50000, 0⟩)) ∧
    (((processOrders {} ⟨50500, 49500, 50000, 10⟩ 1
        { initialState 100000 with
          open_orders := [⟨"BTC", .buy, "market", 1, none, 0⟩] }).bind
      (fun st1 => processOrders {} ⟨51500, 50500, 51000, 10⟩ 2
        { st1 with open_orders := [⟨"BTC", .sell, "market", 1, none, 1⟩] })).map
      (fun st2 => (st2.trades.length,
        (lookupPos st2.positions "BTC").map Position.quantity,
        st2.trades.map (fun t => t.quantity)))
      = some (2, some 0, [1, 1])) ∧
    (2 : ℕ) ≠ 1 := by
  refine ⟨?_, ?_, by norm_num⟩ <;>
    simp [processOrders, processOrdersAux, calculateFillPrice, fillPriceTruthy,
      calculateFees, calculateSlippage, updatePosition, updatePositionRec, lookupPos,
      setPos, recordTrade, initialState, Position.initial, Option.bind]

/-- C3, amended: `_process_orders` records one TradeMetrics entry for every
fill, whatever the position transition (the entry's pnl is fixed at 0 and
never updated): over any processed order list the number of recorded trades
grows exactly by the number of filled orders; and buying quantity q then
selling quantity q of the same symbol at any nonzero prices leaves
`position.quantity = 0` but produces exactly two trade records, each with
quantity q. -/
theorem C3_trade_per_fill :
    (∀ (cfg : Config) (bar : Bar) (tick : ℕ) (orders : List OrderRequest)
        (st st' : EngineState),
      processOrdersAux cfg bar tick orders st = some st' →
      st'.trades.length + st.filled_orders.length
        = st'.filled_orders.length + st.trades.length) ∧
    (∀ (q p1 p2 : ℚ), 0 < q → p1 ≠ 0 → p2 ≠ 0 →
      ∃ st1 st2,
        processOrders {} ⟨p1, p1, p1, 1⟩ 1
            { initialState 100000 with
              open_orders := [⟨"BTC", .buy, "market", q, none, 0⟩] } = some st1 ∧
        processOrders {} ⟨p2, p2, p2, 1⟩ 2
            { st1 with open_orders := [⟨"BTC", .sell, "market", q, none, 1⟩] }
          = some st2 ∧
        lookupPos st2.positions "BTC" = some ⟨0, p1, 0⟩ ∧
        st2.trades.map (fun t => t.quantity) = [q, q]) := by
  constructor
  · intro cfg bar tick orders
    induction orders with
    | nil =>
        intro st st' h
        simp only [processOrdersAux, Option.some.injEq] at h
        subst h
        omega
    | cons o rest ih =>
        intro st st' h
        simp only [processOrdersAux] at h
        split at h
        · split at h
          · have := ih _ _ h
            simpa using this
          · split at h
            · exact absurd h (by simp)
            · have := ih _ _ h
              simp only [updatePosition_filled_orders, updatePosition_trades,
                List.length_append, List.length_cons, List.length_nil] at this ⊢
              omega
        · have := ih _ _ h
          simpa using this
  · intro q p1 p2 hq hp1 hp2
    have hdir : ¬((q > 0 ∧ -q > 0) ∨ (q < 0 ∧ -q < 0)) := by
      rintro (⟨a, b⟩ | ⟨a, b⟩) <;> linarith
    refine ⟨_, _,
      processOrders_market_singleton {} ⟨p1, p1, p1, 1⟩ 1
        { initialState 100000 with
          open_orders := [⟨"BTC", .buy, "market", q, none, 0⟩] }
        ⟨"BTC", .buy, "market", q, none, 0⟩ rfl hp1 rfl rfl,
      processOrders_market_singleton {} ⟨p2, p2, p2, 1⟩ 2 _
        ⟨"BTC", .sell, "market", q, none, 1⟩ rfl hp2 rfl rfl, ?_, ?_⟩
    · simp [updatePosition, lookupPos, setPos, updatePositionRec, initialState,
        Position.initial, hq.ne', hdir]
      rintro (⟨a, b⟩ | ⟨a, b⟩) <;> linarith
    · simp [updatePosition, lookupPos, setPos, updatePositionRec, recordTrade,
        initialState]

/-- C3, witness: the amended theorem's round trip at `q = 1`, buy at 50000,
sell at 51000. -/
theorem C3_witness :
    ∃ st1 st2,
      processOrders {} ⟨50000, 50000, 50000, 1⟩ 1
          { initialState 100000 with
            open_orders := [⟨"BTC", .buy, "market", 1, none, 0⟩] } = some st1 ∧
      processOrders {} ⟨51000, 51000, 51000, 1⟩ 2
          { st1 with open_orders := [⟨"BTC", .sell, "market", 1, none, 1⟩] }
        = some st2 ∧
      lookupPos st2.positions "BTC" = some ⟨0, 50000, 0⟩ ∧
      st2.trades.map (fun t => t.quantity) = [1, 1] :=
  C3_trade_per_fill.2 1 50000 51000 (by norm_num) (by norm_num) (by norm_num)

/-- C8, counterexample: a limit buy at limit price 0 against a bar with
`low = 0` satisfies the claim's fill condition (`side = buy ∧ low ≤ limit`),
yet `_process_orders` produces no fill: the returned price 0 fails the
`if filled_price:` truthiness test and the order stays pending. -/
theorem C8_counterexample :
    calculateFillPrice ⟨"BTC", .buy, "limit", 1, some 0, 0⟩ ⟨1, 0, 1, 1⟩ = some 0 ∧
    ((⟨"BTC", .buy, "limit", 1, some 0, 0⟩ : OrderRequest).side = OrderSide.buy ∧
      (⟨1, 0, 1, 1⟩ : Bar).low ≤ 0) ∧
    processOrders {} ⟨1, 0, 1, 1⟩ 0
        { initialState 100000 with
          open_orders := [⟨"BTC", .buy, "limit", 1, some 0, 0⟩] }
      = some { initialState 100000 with
          open_orders := [⟨"BTC", .buy, "limit", 1, some 0, 0⟩] } := by
  refine ⟨by simp [calculateFillPrice], ⟨rfl, by norm_num⟩, ?_⟩
  simp [processOrders, processOrdersAux, calculateFillPrice, fillPriceTruthy,
    initialState]

/-- C8, amended: a pending limit order fills, exactly at its limit price,
if and only if the limit price is nonzero and (`side = buy ∧ low ≤ limit` or
`side = sell ∧ high ≥ limit`); otherwise it stays pending, left in
`open_orders` for re-evaluation against the next snapshot (a zero limit
price never fills because the fill price fails Python's truthiness test). -/
theorem C8_limit_fill_iff (cfg : Config) (bar : Bar) (tick : ℕ) (st : EngineState)
    (o : OrderRequest) (p : ℚ)
    (ho : o.order_type = "limit") (hp : o.price = some p)
    (hopen : st.open_orders = [o])
    (hbasic : cfg.slippage_model = "basic") :
    ((p ≠ 0 ∧ ((o.side = .buy ∧ bar.low ≤ p) ∨ (o.side = .sell ∧ bar.high ≥ p))) →
      ∃ st', processOrders cfg bar tick st = some st' ∧
        st'.filled_orders = st.filled_orders ++
          [⟨o, p, calculateFees cfg.commission_rate o.quantity p, tick⟩] ∧
        st'.open_orders = []) ∧
    ((p = 0 ∨ ¬((o.side = .buy ∧ bar.low ≤ p) ∨ (o.side = .sell ∧ bar.high ≥ p))) →
      processOrders cfg bar tick st = some { st with open_orders := [o] }) := by
  have hfp : calculateFillPrice o bar =
      if (o.side = .buy ∧ bar.low ≤ p) ∨ (o.side = .sell ∧ bar.high ≥ p) then some p
      else none := by
    rw [calculateFillPrice, ho]
    simp [hp]
  constructor
  · rintro ⟨hp0, hcond⟩
    rw [processOrders, hopen]
    rw [if_pos hcond] at hfp
    simp only [processOrdersAux, hfp, fillPriceTruthy, hp0, hbasic, calculateSlippage,
      ite_true, ne_eq, not_false_eq_true]
    refine ⟨_, rfl, ?_, ?_⟩ <;> simp [updatePosition]
  · intro hpend
    rw [processOrders, hopen]
    by_cases hc : (o.side = .buy ∧ bar.low ≤ p) ∨ (o.side = .sell ∧ bar.high ≥ p)
    · have hp0 : p = 0 := by tauto
      rw [if_pos hc] at hfp
      subst hp0
      simp only [processOrdersAux, hfp, fillPriceTruthy]
      simp
    · rw [if_neg hc] at hfp
      simp only [processOrdersAux, hfp, fillPriceTruthy]
      simp

/-- C8, witness: the amended theorem at the claim's own scenario — a limit
buy at 49000 stays pending against a bar with low 49500, and fills exactly at
49000 (not at the bar's low 48900) against a bar with low 48900. -/
theorem C8_witness :
    (processOrders {} ⟨50000, 49500, 49800, 10⟩ 0
        { initialState 100000 with
          open_orders := [⟨"BTC", .buy, "limit", 1, some 49000, 0⟩] }
      = some { initialState 100000 with
          open_orders := [⟨"BTC", .buy, "limit", 1, some 49000, 0⟩] }) ∧
    (∃ st', processOrders {} ⟨49600, 48900, 49100, 10⟩ 1
        { initialState 100000 with
          open_orders := [⟨"BTC", .buy, "limit", 1, some 49000, 0⟩] } = some st' ∧
      st'.filled_orders =
        [⟨⟨"BTC", .buy, "limit", 1, some 49000, 0⟩, 49000,
          calculateFees (1 / 1000) 1 49000, 1⟩] ∧
      st'.open_orders = []) := by
  constructor
  · exact (C8_limit_fill_iff {} ⟨50000, 49500, 49800, 10⟩ 0 _
      ⟨"BTC", .buy, "limit", 1, some 49000, 0⟩ 49000 rfl rfl rfl rfl).2
      (Or.inr (by
        rintro (⟨-, hle⟩ | ⟨heq, -⟩)
        · norm_num at hle
        · simp at heq))
  · have h := (C8_limit_fill_iff {} ⟨49600, 48900, 49100, 10⟩ 1
      { initialState 100000 with
        open_orders := [⟨"BTC", .buy, "limit", 1, some 49000, 0⟩] }
      ⟨"BTC", .buy, "limit", 1, some 49000, 0⟩ 49000 rfl rfl rfl rfl).1
      ⟨by norm_num, Or.inl ⟨rfl, by norm_num⟩⟩
    simpa [initialState] using h

/-- `updatePosition` never touches the pending-order list. -/
theorem updatePosition_open_orders (st : EngineState) (o : OrderRequest)
    (p c : ℚ) : (updatePosition st o p c).open_orders = st.open_orders := rfl

/-- `updateEquityCurve` never touches the pending-order list. -/
theorem updateEquityCurve_open_orders (st : EngineState) (bar : Bar) :
    (updateEquityCurve st bar).open_orders = st.open_orders := rfl

/-- `updateEquityCurve` never touches the filled-order list. -/
theorem updateEquityCurve_filled_orders (st : EngineState) (bar : Bar) :
    (updateEquityCurve st bar).filled_orders = st.filled_orders := rfl

/-- With `_create_order` always returning `None`, the signal-to-order
pipeline contributes no orders, whatever the signals. -/
theorem filterMap_createOrder (strat : Strategy) (symbol : String) (capital : ℚ)
    (tick : ℕ) (sigs : List Signal) :
    sigs.filterMap (fun sg => createOrder strat symbol capital sg tick) = [] := by
  induction sigs with
  | nil => rfl
  | cons s ss ih => simp [List.filterMap_cons, createOrder, ih]

/-- Simulation-loop invariant: a historical run started with no pending and
no filled orders keeps both lists empty at every tick — `_process_orders`
has nothing to fill, and `_create_order` never succeeds. -/
theorem simulateAux_no_orders (cfg : Config) (strat : Strategy) (symbol : String) :
    ∀ (rest : List Bar) (i : ℕ) (st st' : EngineState),
      simulateAux cfg strat symbol i rest st = some st' →
      st.open_orders = [] → st.filled_orders = [] →
      st'.open_orders = [] ∧ st'.filled_orders = [] := by
  intro rest
  induction rest with
  | nil =>
      intro i st st' h ho hf
      simp only [simulateAux, Option.some.injEq] at h
      subst h
      exact ⟨ho, hf⟩
  | cons bar rest ih =>
      intro i st st' h ho hf
      simp only [simulateAux] at h
      cases hpo : processOrders cfg bar i st with
      | none => rw [hpo] at h; cases h
      | some st1 =>
          rw [hpo] at h
          rw [processOrders, ho] at hpo
          simp only [processOrdersAux, Option.some.injEq] at hpo
          cases hsa : strat.analyzeMarket bar with
          | none => rw [hsa] at h; cases h
          | some sigs =>
              rw [hsa] at h
              refine ih (i + 1) _ st' h ?_ ?_
              · rw [updateEquityCurve_open_orders, filterMap_createOrder]
                simp [← hpo]
              · rw [updateEquityCurve_filled_orders]
                simp [← hpo, hf]

/-- C1: `_create_order` always raises (its `OrderRequest` constructor call
does not match the dataclass) and its handler returns `None`, so a
historical run never creates an order and never produces a fill:
`open_orders` and `filled_orders` are empty in every successful run result.
The claim therefore holds of the program exactly as stated, vacuously: every
market order processed during a historical backtest — there are none — is
filled at the tick at which it was created, at that bar's close, and never
at a later bar's close. -/
theorem C1_no_orders_ever_filled (cfg : Config) (strat : Strategy)
    (symbol : String) (bars : List Bar) (st' : EngineState)
    (hrun : runHistorical cfg strat symbol bars = some st') :
    st'.filled_orders = [] ∧ st'.open_orders = [] ∧
    ∀ f ∈ st'.filled_orders,
      f.order.order_type = "market" →
        f.tick = f.order.createdTick ∧
        (bars[f.order.createdTick]?).map Bar.close = some f.average_price := by
  obtain ⟨ho, hf⟩ := simulateAux_no_orders cfg strat symbol bars 0
    (initialState cfg.initial_capital) st' hrun rfl rfl
  refine ⟨hf, ho, ?_⟩
  intro f hfm
  rw [hf] at hfm
  exact absurd hfm (List.not_mem_nil f)

/-- C1, witness: a one-bar run whose strategy emits a buy signal still ends
with no pending and no filled orders, and the theorem's per-fill conclusion
holds for its (empty) fill list. -/
theorem C1_witness :
    ∃ st', runHistorical {}
        ⟨fun _ => some [⟨OrderSide.buy, 8 / 10⟩], fun _ _ => 1⟩ "BTC"
        [⟨101, 99, 100, 10⟩] = some st' ∧
      st'.filled_orders = [] ∧ st'.open_orders = [] ∧
      ∀ f ∈ st'.filled_orders,
        f.order.order_type = "market" →
          f.tick = f.order.createdTick ∧
          (([⟨101, 99, 100, 10⟩] : List Bar)[f.order.createdTick]?).map Bar.close
            = some f.average_price := by
  have hrun : runHistorical {}
      ⟨fun _ => some [⟨OrderSide.buy, 8 / 10⟩], fun _ _ => 1⟩ "BTC"
      [⟨101, 99, 100, 10⟩] = some ⟨100000, [], [], [], [], [100000]⟩ := by
    norm_num [runHistorical, simulateAux, processOrders, processOrdersAux,
      initialState, updateEquityCurve, createOrder, List.filterMap]
  exact ⟨_, hrun,
    C1_no_orders_ever_filled {} _ "BTC" [⟨101, 99, 100, 10⟩] _ hrun⟩

/-- C7, counterexample: in a two-bar historical run whose strategy raises at
tick 0 and succeeds at tick 1, the source returns the empty result `{}`
(embedded `none`) — the tick is not skipped and the run does not continue.
The spec-modelled per-tick-catch variant of the same run completes with a
two-point equity curve. -/
theorem C7_counterexample :
    runHistorical {}
        ⟨fun b => if b.close = 100 then none else some [], fun _ _ => 0⟩
        "BTC" [⟨101, 99, 100, 10⟩, ⟨201, 199, 200, 10⟩] = none ∧
    (simulateSkipAux {}
        ⟨fun b => if b.close = 100 then none else some [], fun _ _ => 0⟩
        "BTC" 0 [⟨101, 99, 100, 10⟩, ⟨201, 199, 200, 10⟩]
        (initialState 100000)).map (fun st => st.equity_curve.length) = some 2 := by
  constructor <;>
    norm_num [runHistorical, simulateAux, simulateSkipAux, processOrders,
      processOrdersAux, initialState, updateEquityCurve]

/-- C7, amended: a Strategy exception at any reached tick of a historical run
is NOT caught per-tick — it propagates to the run-level handler, which
discards the accumulated ledger/equity state and returns the empty result
`{}` (embedded `none`); subsequent ticks are not simulated. -/
theorem C7_strategy_error_aborts (cfg : Config) (strat : Strategy)
    (symbol : String) (bars : List Bar)
    (hfail : ∃ b ∈ bars, strat.analyzeMarket b = none) :
    runHistorical cfg strat symbol bars = none := by
  obtain ⟨b, hb, hnone⟩ := hfail
  have aux : ∀ (rest : List Bar), b ∈ rest → ∀ (i : ℕ) (st : EngineState),
      simulateAux cfg strat symbol i rest st = none := by
    intro rest
    induction rest with
    | nil => intro hmem; exact absurd hmem (List.not_mem_nil b)
    | cons c cs ih =>
        intro hmem i st
        simp only [simulateAux]
        cases hpo : processOrders cfg c i st with
        | none => rfl
        | some st1 =>
            rcases List.mem_cons.mp hmem with heq | hmem'
            · subst heq
              rw [hnone]
            · cases hsa : strat.analyzeMarket c with
              | none => rfl
              | some sigs => exact ih hmem' (i + 1) _
  exact aux bars hb 0 _

/-- C7, witness: the amended theorem at the two-bar run failing at tick 0. -/
theorem C7_witness :
    runHistorical {}
        ⟨fun b => if b.close = 100 then none else some [], fun _ _ => 0⟩
        "BTC" [⟨101, 99, 100, 10⟩, ⟨201, 199, 200, 10⟩] = none :=
  C7_strategy_error_aborts {} _ "BTC" _
    ⟨⟨101, 99, 100, 10⟩, by simp, by simp⟩

/-- A left fold of `min` never exceeds its starting value. -/
theorem foldl_min_le (xs : List ℚ) : ∀ (x : ℚ), xs.foldl min x ≤ x := by
  induction xs with
  | nil => intro x; exact le_refl x
  | cons y ys ih => intro x; exact le_trans (ih (min x y)) (min_le_left x y)

/-- Negating a list turns its min fold into a max fold. -/
theorem foldl_max_map_neg (xs : List ℚ) : ∀ (x : ℚ),
    (xs.map (fun y => -y)).foldl max (-x) = -(xs.foldl min x) := by
  induction xs with
  | nil => intro x; rfl
  | cons y ys ih =>
      intro x
      simp only [List.map_cons, List.foldl_cons]
      rw [max_neg_neg, ih (min x y)]

/-- The running-max gaps are the pointwise negations of the drawdowns. -/
theorem zipWith_flip_neg (A : List ℚ) : ∀ (B : List ℚ),
    List.zipWith (fun m v => m - v) A B
      = (List.zipWith (fun v m => v - m) B A).map (fun x => -x) := by
  induction A with
  | nil => intro B; cases B <;> rfl
  | cons a as ih =>
      intro B
      cases B with
      | nil => rfl
      | cons b bs =>
          simp only [List.zipWith_cons_cons, List.map_cons, neg_sub]
          rw [ih bs]

/-- The first component of the drawdown metrics is `abs` of the minimum
drawdown, whatever the duration branch taken. -/
theorem calculateDrawdownMetrics_fst (curve : List (ℚ × ℚ)) :
    (calculateDrawdownMetrics curve).1 =
      |listMin (List.zipWith (fun v m => v - m) (curve.map Prod.snd)
        (rollingMax (curve.map Prod.snd)))| := by
  cases curve with
  | nil => simp [calculateDrawdownMetrics, rollingMax, listMin]
  | cons c cs =>
      simp only [calculateDrawdownMetrics]
      split
      · rfl
      · rfl

/-- `abs` of the minimum drawdown equals the largest running-max gap. -/
theorem abs_listMin_eq_absMax (curve : List (ℚ × ℚ)) :
    |listMin (List.zipWith (fun v m => v - m) (curve.map Prod.snd)
      (rollingMax (curve.map Prod.snd)))| = absMaxDrawdown curve := by
  cases curve with
  | nil => simp [listMin, rollingMax, absMaxDrawdown]
  | cons c cs =>
      simp only [absMaxDrawdown, List.map_cons, rollingMax, rollingMaxAux, max_self,
        List.zipWith_cons_cons, sub_self, listMin, List.foldl_cons]
      rw [zipWith_flip_neg _ (cs.map Prod.snd)]
      have hmn := foldl_max_map_neg
        (List.zipWith (fun v m => v - m) (cs.map Prod.snd)
          (rollingMaxAux c.2 (cs.map Prod.snd))) 0
      rw [neg_zero] at hmn
      rw [hmn]
      exact abs_of_nonpos (foldl_min_le _ 0)

/-- The expanding maximum of a chain-nondecreasing tail is the tail itself. -/
theorem rollingMaxAux_of_chain (l : List ℚ) : ∀ (m : ℚ),
    List.Chain (· ≤ ·) m l → rollingMaxAux m l = l := by
  induction l with
  | nil => intro m _; rfl
  | cons y ys ih =>
      intro m hch
      rw [List.chain_cons] at hch
      obtain ⟨hab, hch2⟩ := hch
      simp only [rollingMaxAux, max_eq_right hab]
      rw [ih y hch2]

/-- Zipping a list with itself under subtraction gives all zeros. -/
theorem zipWith_sub_self (l : List ℚ) :
    List.zipWith (fun v m => v - m) l l = List.replicate l.length 0 := by
  induction l with
  | nil => rfl
  | cons x xs ih =>
      simp [List.zipWith_cons_cons, sub_self, List.replicate_succ, ih]

/-- The min fold of an all-zero list from 0 is 0. -/
theorem foldl_min_replicate (n : ℕ) :
    (List.replicate n (0:ℚ)).foldl min 0 = 0 := by
  induction n with
  | zero => rfl
  | succ k ih => simp [List.replicate_succ, List.foldl_cons, min_self, ih]

/-- `listMin` of a nonempty all-zero list is 0. -/
theorem listMin_replicate_zero (n : ℕ) :
    listMin (List.replicate (n + 1) (0:ℚ)) = 0 := by
  rw [List.replicate_succ]
  simp only [listMin]
  exact foldl_min_replicate n

/-- Filtering zero drawdowns out of an all-zero drawdown series keeps
everything. -/
theorem filter_zip_replicate_zero (ts : List ℚ) (n : ℕ) :
    ((List.zip ts (List.replicate n (0:ℚ))).filter (fun p => p.2 = 0)) =
      List.zip ts (List.replicate n 0) := by
  rw [List.filter_eq_self]
  rintro ⟨a, b⟩ hp
  have hb := (List.of_mem_zip hp).2
  have := List.eq_of_mem_replicate hb
  simp [this]

/-- On a monotonically non-decreasing curve the drawdown metrics are 0 and
`(first_timestamp − last_timestamp) / 3600` — a non-positive duration. -/
theorem drawdown_nondecreasing (curve : List (ℚ × ℚ))
    (h : List.Chain' (· ≤ ·) (curve.map Prod.snd)) :
    calculateDrawdownMetrics curve =
      (0, ((curve.map Prod.fst).headD 0 - (curve.map Prod.fst).getLastD 0) / 3600) := by
  cases curve with
  | nil => simp [calculateDrawdownMetrics]
  | cons c cs =>
      have hch : List.Chain (· ≤ ·) c.2 (cs.map Prod.snd) := h
      have hrm : rollingMax (List.map Prod.snd (c :: cs))
          = List.map Prod.snd (c :: cs) := by
        simp only [List.map_cons, rollingMax, rollingMaxAux, max_self]
        rw [rollingMaxAux_of_chain _ _ hch]
      simp only [calculateDrawdownMetrics, hrm, zipWith_sub_self]
      simp only [List.length_map, List.length_cons, List.map_cons]
      simp only [listMin_replicate_zero, filter_zip_replicate_zero]
      rw [List.map_fst_zip _ _ (by simp)]
      cases hgl : (c.1 :: List.map Prod.fst cs).getLast? with
      | none => exact absurd (List.getLast?_eq_none_iff.mp hgl) (by simp)
      | some x =>
          simp only [List.head?_cons]
          simp [List.getLastD_eq_getLast?, hgl]

/-- C9, counterexample: on the curve (t=0, 100), (t=3600, 50) the source
reports max drawdown 50 — the absolute gap `100 − 50` in currency units —
not the claim's fraction of the running peak `|(50 − 100)/100| = 1/2`; and
on the monotonically non-decreasing curve (t=0, 100), (t=3600, 110) the
reported drawdown duration is −1 hour (first timestamp minus last), not the
0 the claim requires. -/
theorem C9_counterexample :
    calculateDrawdownMetrics [((0:ℚ), (100:ℚ)), (3600, 50)] = (50, 1) ∧
    (50 : ℚ) ≠ |((50 : ℚ) - 100) / 100| ∧
    calculateDrawdownMetrics [((0:ℚ), (100:ℚ)), (3600, 110)] = (0, -1) ∧
    (-1 : ℚ) ≠ 0 := by
  refine ⟨?_,
    by rw [abs_of_nonpos (by norm_num : ((50:ℚ) - 100) / 100 ≤ 0)]; norm_num,
    ?_, by norm_num⟩ <;>
    norm_num [calculateDrawdownMetrics, rollingMax, rollingMaxAux, listMin,
      List.zipWith, List.zip, List.filter]

/-- C9, amended: the source max drawdown is the largest magnitude of
`equity − running_max` in absolute currency units (never divided by the
running peak); on an empty curve both metrics are 0; on a monotonically
non-decreasing curve the max drawdown is 0 but the reported duration is
`(first_timestamp − last_timestamp)/3600`, which is 0 only for a
single-point curve and negative otherwise. -/
theorem C9_drawdown_absolute :
    (∀ curve : List (ℚ × ℚ),
      (calculateDrawdownMetrics curve).1 = absMaxDrawdown curve) ∧
    calculateDrawdownMetrics ([] : List (ℚ × ℚ)) = (0, 0) ∧
    (∀ curve : List (ℚ × ℚ), List.Chain' (· ≤ ·) (curve.map Prod.snd) →
      calculateDrawdownMetrics curve =
        (0, ((curve.map Prod.fst).headD 0 - (curve.map Prod.fst).getLastD 0) / 3600)) :=
  ⟨fun curve => (calculateDrawdownMetrics_fst curve).trans (abs_listMin_eq_absMax curve),
    rfl, drawdown_nondecreasing⟩

/-- C9, witness: the amended theorem at the two concrete curves of the
counterexample. -/
theorem C9_witness :
    (calculateDrawdownMetrics [((0:ℚ), (100:ℚ)), (3600, 50)]).1 =
      absMaxDrawdown [((0:ℚ), (100:ℚ)), (3600, 50)] ∧
    calculateDrawdownMetrics [((0:ℚ), (100:ℚ)), (3600, 110)] =
      (0, (([((0:ℚ), (100:ℚ)), (3600, 110)].map Prod.fst).headD 0
        - ([((0:ℚ), (100:ℚ)), (3600, 110)].map Prod.fst).getLastD 0) / 3600) := by
  refine ⟨C9_drawdown_absolute.1 [(0, 100), (3600, 50)], ?_⟩
  exact C9_drawdown_absolute.2.2 [(0, 100), (3600, 110)]
    (by simp [List.chain'_cons]; norm_num)

/-- C10, witness: the theorem applied to the singleton list holding one
break-even trade (`pnl = 0`, counted as losing): the call raises, and the
computed locals partition the list. -/
theorem C10_witness :
    calculateMetrics [⟨0, 0, "BTC", "buy", 50000, 50000, 1, 0, 50, 5, 0, 0⟩]
      = MetricsResult.raisedTypeError ∧
    (basicCounts [⟨0, 0, "BTC", "buy", 50000, 50000, 1, 0, 50, 5, 0, 0⟩]).winning_trades
      + (basicCounts [⟨0, 0, "BTC", "buy", 50000, 50000, 1, 0, 50, 5, 0, 0⟩]).losing_trades
      = (basicCounts [⟨0, 0, "BTC", "buy", 50000, 50000, 1, 0, 50, 5, 0, 0⟩]).total_trades :=
  ⟨C10_win_lose_partition.1 [⟨0, 0, "BTC", "buy", 50000, 50000, 1, 0, 50, 5, 0, 0⟩]
      (by simp),
    (C10_win_lose_partition.2 [⟨0, 0, "BTC", "buy", 50000, 50000, 1, 0, 50, 5, 0, 0⟩]).1⟩

end Backtest
